import Mathlib

/-!
Verification of the reconciliation engine of a declarative-resource
provider (`k8s` package: `helpers.go`, `patch.go`,
`resource_k8s_manifest.go`).

The Go code is shallowly embedded: Go JSON values (the contents of an
`unstructured.Unstructured` object) become the inductive `Json`; Go maps
become association lists whose operations act on the first matching key
(Go maps never hold duplicate keys); Go strings in the identity codec
become `List Char` so the splitting and joining of tracking keys can be
reasoned about directly.  Remote API calls, which are external
collaborators, are passed in as explicit results.
-/

/-- A JSON value: the payload of one `unstructured.Unstructured` object. -/
inductive Json where
  | null
  | bool (b : Bool)
  | num (n : Int)
  | str (s : String)
  | arr (xs : List Json)
  | obj (fields : List (String × Json))

mutual

/-- Structural equality of JSON values, mirroring Go `reflect.DeepEqual` /
`==` on the decoded values. -/
def Json.beq : Json → Json → Bool
  | .null, .null => true
  | .bool a, .bool b => a == b
  | .num a, .num b => a == b
  | .str a, .str b => a == b
  | .arr a, .arr b => beqArr a b
  | .obj a, .obj b => beqFields a b
  | _, _ => false

def beqArr : List Json → List Json → Bool
  | [], [] => true
  | x :: xs, y :: ys => Json.beq x y && beqArr xs ys
  | _, _ => false

def beqFields : List (String × Json) → List (String × Json) → Bool
  | [], [] => true
  | (k, v) :: xs, (k2, v2) :: ys => k == k2 && Json.beq v v2 && beqFields xs ys
  | _, _ => false

end

/-- Key lookup in a JSON object (Go `m[key]` on `map[string]interface{}`). -/
def lookupField (fs : List (String × Json)) (k : String) : Option Json :=
  (fs.find? (fun p => p.1 == k)).map (fun p => p.2)

/-- Key assignment in a JSON object (Go `m[key] = v`): replaces the first
occurrence, appends when absent. -/
def setField : List (String × Json) → String → Json → List (String × Json)
  | [], k, v => [(k, v)]
  | (k2, v2) :: rest, k, v =>
    if k2 == k then (k, v) :: rest else (k2, v2) :: setField rest k v

/-- Key deletion in a JSON object (Go `delete(m, key)`). -/
def removeField (fs : List (String × Json)) (k : String) : List (String × Json) :=
  fs.filter (fun p => p.1 != k)

/-- Keys of a Go map are pairwise distinct; association lists standing for
Go maps satisfy this. -/
def uniqueKeys : List (String × Json) → Bool
  | [] => true
  | (k, _) :: rest => (!rest.any (fun p => p.1 == k)) && uniqueKeys rest

mutual

/-- Well-formedness of a value decoded from a Go map: every object level
has pairwise-distinct keys. -/
def Json.mapWF : Json → Bool
  | .obj fs => uniqueKeys fs && fieldsWF fs
  | .arr xs => arrWF xs
  | _ => true

def arrWF : List Json → Bool
  | [] => true
  | x :: xs => x.mapWF && arrWF xs

def fieldsWF : List (String × Json) → Bool
  | [] => true
  | (_, v) :: rest => v.mapWF && fieldsWF rest

end

/-- In-memory form of one remote resource:
`unstructured.Unstructured` is a bare JSON object. -/
structure Unstructured where
  fields : List (String × Json)

/-- `Unstructured.GetAPIVersion`: the `apiVersion` field, or `""`. -/
def Unstructured.getAPIVersion (u : Unstructured) : String :=
  match lookupField u.fields "apiVersion" with
  | some (.str s) => s
  | _ => ""

/-- `Unstructured.GetKind`: the `kind` field, or `""`. -/
def Unstructured.getKind (u : Unstructured) : String :=
  match lookupField u.fields "kind" with
  | some (.str s) => s
  | _ => ""

/-- `NestedString(u.Object, k1, k2)`: two-level string lookup, `""` when
missing or not a string. -/
def getNestedString (fs : List (String × Json)) (k1 k2 : String) : String :=
  match lookupField fs k1 with
  | some (.obj m) =>
    match lookupField m k2 with
    | some (.str s) => s
    | _ => ""
  | _ => ""

/-- `SetNestedField(u.Object, v, k1, k2)`: creates the intermediate map when
absent; silently does nothing when the intermediate value is not a map
(the Go error is discarded by the accessor). -/
def setNestedField (fs : List (String × Json)) (k1 k2 : String) (v : Json) :
    List (String × Json) :=
  match lookupField fs k1 with
  | some (.obj m) => setField fs k1 (.obj (setField m k2 v))
  | some _ => fs
  | none => setField fs k1 (.obj [(k2, v)])

/-- `RemoveNestedField(u.Object, k1, k2)`: removes the leaf key; does
nothing when the intermediate value is missing or not a map. -/
def removeNestedField (fs : List (String × Json)) (k1 k2 : String) :
    List (String × Json) :=
  match lookupField fs k1 with
  | some (.obj m) => setField fs k1 (.obj (removeField m k2))
  | _ => fs

/-- `Unstructured.GetResourceVersion`: `metadata.resourceVersion`. -/
def Unstructured.getResourceVersion (u : Unstructured) : String :=
  getNestedString u.fields "metadata" "resourceVersion"

/-- `Unstructured.SetResourceVersion`: setting the empty string removes the
field, as the accessor does. -/
def Unstructured.setResourceVersion (v : String) (u : Unstructured) : Unstructured :=
  if v = "" then ⟨removeNestedField u.fields "metadata" "resourceVersion"⟩
  else ⟨setNestedField u.fields "metadata" "resourceVersion" (.str v)⟩

/-- `Unstructured.GetNamespace`: `metadata.namespace`. -/
def Unstructured.getNamespace (u : Unstructured) : String :=
  getNestedString u.fields "metadata" "namespace"

/-- `Unstructured.SetNamespace`: setting the empty string removes the field. -/
def Unstructured.setNamespace (ns : String) (u : Unstructured) : Unstructured :=
  if ns = "" then ⟨removeNestedField u.fields "metadata" "namespace"⟩
  else ⟨setNestedField u.fields "metadata" "namespace" (.str ns)⟩

/-- `Unstructured.GetName`: `metadata.name`. -/
def Unstructured.getName (u : Unstructured) : String :=
  getNestedString u.fields "metadata" "name"

/-- `GroupVersionKind().GroupVersion().String()` derived from the
`apiVersion` string: `ParseGroupVersion` keeps a slash-free string whole,
splits one slash into group/version (an empty group renders as the bare
version), and yields the empty value on two or more slashes. -/
def gvString (apiVersion : String) : String :=
  if apiVersion = "" ∨ apiVersion = "/" then ""
  else
    match ((apiVersion.toList.filter (fun c => c == '/')).length) with
    | 0 => apiVersion
    | 1 =>
      match apiVersion.toList with
      | '/' :: rest => String.mk rest
      | _ => apiVersion
    | _ => ""

/-- `idSeparator = "::"` (`helpers.go`). -/
def idSeparator : List Char := [':', ':']

/-- Go `strings.Split(s, "::")`: repeatedly consumes the leftmost
occurrence of the two-character separator `idSeparator`. -/
def splitSep : List Char → List (List Char)
  | [] => [[]]
  | [c] => [[c]]
  | c1 :: c2 :: rest =>
    if c1 == ':' && c2 == ':' then
      [] :: splitSep rest
    else
      match splitSep (c2 :: rest) with
      | [] => [[c1]]
      | r :: rs => (c1 :: r) :: rs

/-- Go `strings.Join(parts, "::")`. -/
def joinSep : List (List Char) → List Char
  | [] => []
  | [x] => x
  | x :: xs => x ++ idSeparator ++ joinSep xs

/-- Whether the separator occurs as a contiguous substring. -/
def hasSep : List Char → Bool
  | [] => false
  | [_] => false
  | c1 :: c2 :: rest => (c1 == ':' && c2 == ':') || hasSep (c2 :: rest)

/-- Errors surfaced by the engine. -/
inductive Err where
  | format (id : List Char)
  | mapDecode
  | nilErr
  | timeout
  | unexpectedState (s : String)
  | wrapped (msg : String) (e : Err)
  | parseGV (gv : List Char)
  | remote (code : Nat)
deriving DecidableEq

/-- View of an `Except` as a sum, giving decidable equality of results. -/
def Except.toSum {e a : Type} : Except e a → e ⊕ a
  | .error x => .inl x
  | .ok x => .inr x

instance {e a : Type} [DecidableEq e] [DecidableEq a] : DecidableEq (Except e a) :=
  fun x y =>
    decidable_of_iff (x.toSum = y.toSum)
      (by cases x <;> cases y <;> simp [Except.toSum])

/-- `idParts` (`helpers.go`): decode a tracking key into
(namespace, groupVersion, kind, name); a format error unless the split
yields exactly 4 parts. -/
def idParts (id : List Char) :
    Except Err (List Char × List Char × List Char × List Char) :=
  match splitSep id with
  | [a, b, c, d] => .ok (a, b, c, d)
  | _ => .error (.format id)

/-- `buildId` (`helpers.go`): join namespace, groupVersion string, kind and
name with the separator. -/
def buildId (object : Unstructured) : List Char :=
  joinSep
    [ object.getNamespace.toList,
      (gvString object.getAPIVersion).toList,
      object.getKind.toList,
      object.getName.toList ]

mutual

/-- Render a JSON value back to bytes (`json.Marshal`); used only to state
the empty-object sentinel comparison `string(patch) == "{}"`. -/
def renderJson : Json → String
  | .null => "null"
  | .bool b => if b then "true" else "false"
  | .num n => toString n
  | .str s => "\"" ++ s ++ "\""
  | .arr xs => "[" ++ renderArr xs ++ "]"
  | .obj fs => "\x7b" ++ renderFields fs ++ "\x7d"

def renderArr : List Json → String
  | [] => ""
  | [x] => renderJson x
  | x :: y :: xs => renderJson x ++ "," ++ renderArr (y :: xs)

def renderFields : List (String × Json) → String
  | [] => ""
  | [(k, v)] => "\"" ++ k ++ "\":" ++ renderJson v
  | (k, v) :: p :: rest =>
    "\"" ++ k ++ "\":" ++ renderJson v ++ "," ++ renderFields (p :: rest)

end

/-- Keys present in `a` but absent from `b` become explicit `null` entries
(deletion directives of a JSON merge patch). -/
def delNulls (a b : List (String × Json)) : List (String × Json) :=
  a.filterMap (fun p =>
    match lookupField b p.1 with
    | none => some (p.1, Json.null)
    | some _ => none)

/-- Modelled from the spec: the two-way JSON merge-patch diff of the
external `jsonpatch.CreateMergePatch` library, "generic JSON merge
semantics, which replace whole list values".  `diffChanges a b` collects,
for every key of `b`, an added value, a changed value (lists and scalars
replaced wholesale), or a recursive object diff kept only when non-empty. -/
def diffChanges (a : List (String × Json)) : List (String × Json) → List (String × Json)
  | [] => []
  | (k, bv) :: rest =>
    let tail := diffChanges a rest
    match lookupField a k with
    | none => (k, bv) :: tail
    | some av =>
      match av, bv with
      | .obj ao, .obj bo =>
        let d := diffChanges ao bo ++ delNulls ao bo
        if d.isEmpty then tail else (k, .obj d) :: tail
      | av2, bv2 => if Json.beq av2 bv2 then tail else (k, bv2) :: tail
termination_by b => sizeOf b

/-- Modelled from the spec: "compute a two-way merge patch between
`current` and `target` bytes" — changes plus deletion directives. -/
def createMergePatch (old new2 : List (String × Json)) : List (String × Json) :=
  diffChanges old new2 ++ delNulls old new2

/-- Modelled from the spec: the additions-and-changes half of the external
three-way strategic merge patch (a diff that ignores deletions at every
level). -/
def diffNoDeletions (a : List (String × Json)) : List (String × Json) → List (String × Json)
  | [] => []
  | (k, bv) :: rest =>
    let tail := diffNoDeletions a rest
    match lookupField a k with
    | none => (k, bv) :: tail
    | some av =>
      match av, bv with
      | .obj ao, .obj bo =>
        let d := diffNoDeletions ao bo
        if d.isEmpty then tail else (k, .obj d) :: tail
      | av2, bv2 => if Json.beq av2 bv2 then tail else (k, bv2) :: tail
termination_by b => sizeOf b

/-- Modelled from the spec: "fields removed between `original`→`target`
are removed from `current`" — deletion directives for keys of `original`
that are gone from `target` and still present in `current`, recursing
through nested objects. -/
def threeWayDeletions : List (String × Json) → List (String × Json) →
    List (String × Json) → List (String × Json)
  | [], _, _ => []
  | (k, ov) :: rest, tgt, cur =>
    let tail := threeWayDeletions rest tgt cur
    match lookupField tgt k with
    | none =>
      match lookupField cur k with
      | some _ => (k, Json.null) :: tail
      | none => tail
    | some tv =>
      match ov, tv with
      | .obj oo, .obj to2 =>
        match lookupField cur k with
        | some (.obj co) =>
          let d := threeWayDeletions oo to2 co
          if d.isEmpty then tail else (k, .obj d) :: tail
        | _ => tail
      | _, _ => tail
termination_by o _ _ => sizeOf o

/-- Modelled from the spec: combine the deletion directives with the
additive delta ("apply delta to deletions as a patch"), merging nested
objects key-wise. -/
def mergeFields : List (String × Json) → List (String × Json) → List (String × Json)
  | a, [] => a
  | a, (k, v) :: rest =>
    match lookupField a k, v with
    | some (.obj ao), .obj bo => mergeFields (setField a k (.obj (mergeFields ao bo))) rest
    | _, _ => mergeFields (setField a k v) rest
termination_by _ b => sizeOf b

/-- Modelled from the spec: "compute a three-way merge patch from
`(original, target, current)`" for a natively registered kind: deletions
from `original`→`target`, merged with the delta from `current`→`target`.
The kind's field merge metadata only refines how lists are merged and is
not consulted by any verified claim, so lists are compared wholesale here. -/
def threeWayMergePatch (original target current : List (String × Json)) :
    List (String × Json) :=
  mergeFields (threeWayDeletions original target current) (diffNoDeletions current target)

/-- `types.PatchType` as selected by the patch engine. -/
inductive PatchType where
  | strategicMerge
  | merge
deriving DecidableEq

/-- `createPatch` (`patch.go`): serialize the three objects and select the
patch strategy by kind registration in the native scheme, abstracted as
the predicate `native` on (apiVersion, kind).  A kind that does not
convert to a registered type falls back to the generic two-way merge
patch; a registered kind gets the three-way strategic merge patch.
(The serialization and metadata-derivation error paths of the Go code
cannot fire on the always-serializable object model.) -/
def createPatch (native : String → String → Bool)
    (target original current : Unstructured) : Except Err (Json × PatchType) :=
  let oldData := current.fields
  let originalData := original.fields
  let newData := target.fields
  let isUnstructured := !native target.getAPIVersion target.getKind
  if isUnstructured then
    .ok (.obj (createMergePatch oldData newData), .merge)
  else
    .ok (.obj (threeWayMergePatch originalData newData oldData), .strategicMerge)

/-- What the apply step did: skipped the remote write, or issued a
conditional patch of the given object with the given strategy and body. -/
inductive PatchAction where
  | skipped
  | wrote (current : Unstructured) (ptype : PatchType) (body : Json)

/-- `patch` (`patch.go`): compute the patch; when its bytes equal the
empty-object sentinel report success without touching the remote API,
otherwise issue the conditional patch of `current`. -/
def patchGo (native : String → String → Bool)
    (target original current : Unstructured) : Except Err PatchAction :=
  match createPatch native target original current with
  | .error e => .error (.wrapped "failed to create patch" e)
  | .ok (p, pt) =>
    if renderJson p = "\x7b\x7d" then .ok .skipped
    else .ok (.wrote current pt p)

/-- The `status` struct of `resource_k8s_manifest.go`: the best-effort
decode target for heuristic readiness classification. -/
structure StatusRec where
  readyReplicas : Option Int
  phase : Option String
  loadBalancer : Option (List (String × Json))

/-- ASCII lower-casing of one character (the key folding `mapstructure`
uses when matching map keys to struct field names). -/
def lowerChar (c : Char) : Char :=
  if 'A' ≤ c ∧ c ≤ 'Z' then Char.ofNat (c.toNat + 32) else c

/-- Case-folded equality of two key strings, character by character. -/
def eqFold : List Char → List Char → Bool
  | [], [] => true
  | a :: as2, b :: bs2 => (lowerChar a == lowerChar b) && eqFold as2 bs2
  | _, _ => false

/-- Case-insensitive key lookup: `mapstructure` matches map keys to struct
field names ignoring case. -/
def lookupFieldCI (fs : List (String × Json)) (k : String) : Option Json :=
  (fs.find? (fun p => eqFold p.1.toList k.toList)).map (fun p => p.2)

/-- Third field of the `mapstructure` decode:
`LoadBalancer *map[string]interface{}`. -/
def decodeStatusLB (fs : List (String × Json)) (rr : Option Int)
    (ph : Option String) : Except Err StatusRec :=
  match lookupFieldCI fs "loadBalancer" with
  | some (.obj lb) => .ok ⟨rr, ph, some lb⟩
  | none => .ok ⟨rr, ph, none⟩
  | some _ => .error .mapDecode

/-- Second field of the `mapstructure` decode: `Phase *string`. -/
def decodeStatusPhase (fs : List (String × Json)) (rr : Option Int) :
    Except Err StatusRec :=
  match lookupFieldCI fs "phase" with
  | some (.str p) => decodeStatusLB fs rr (some p)
  | none => decodeStatusLB fs rr none
  | some _ => .error .mapDecode

/-- `mapstructure.Decode(s, &status)`: the status value must be a map;
each present field must have the declared shape (int, string, map), any
other shape is a decode error; absent fields stay `none`. -/
def decodeStatus (s : Json) : Except Err StatusRec :=
  match s with
  | .obj fs =>
    match lookupFieldCI fs "readyReplicas" with
    | some (.num n) => decodeStatusPhase fs (some n)
    | none => decodeStatusPhase fs none
    | some _ => .error .mapDecode
  | _ => .error .mapDecode

/-- Outcome of one readiness refresh on a successfully fetched object. -/
inductive RefreshRes where
  | ready
  | pending
  | errState (e : Option Err)
deriving DecidableEq

/-- The phases the heuristic accepts as ready (exact, case-sensitive). -/
def readyPhases : List String :=
  ["Active", "Bound", "Running", "Ready", "Online", "Healthy"]

/-- The classification step of the `Refresh` closure of
`waitForReadyStatus` (`resource_k8s_manifest.go`), applied to the freshly
fetched object.  `viewer` is the optional kind-specific rollout status
viewer (`polymorphichelpers.StatusViewerFor`), an external collaborator:
`none` means no viewer is registered for the kind.  A missing `status`
field classifies ready at once; otherwise the viewer's verdict is
authoritative; otherwise the decoded snapshot is run through the
readyReplicas, phase and loadBalancer heuristics in source order, the
`"error"` returns of the Go code (which carry the then-`nil` fetch error)
becoming `errState none`. -/
def refreshClassify (viewer : Option (Unstructured → Except Err Bool))
    (object : Unstructured) : RefreshRes :=
  match lookupField object.fields "status" with
  | none => .ready
  | some s =>
    match viewer with
    | some v =>
      match v object with
      | .error e => .errState (some e)
      | .ok true => .ready
      | .ok false => .pending
    | none =>
      match decodeStatus s with
      | .error e => .errState (some e)
      | .ok st =>
        match st.readyReplicas with
        | some n => if 0 < n then .ready else .pending
        | none =>
          match st.phase with
          | some p => if readyPhases.contains p then .ready else .pending
          | none =>
            match st.loadBalancer with
            | none => .ready
            | some lb =>
              if object.getAPIVersion == "v1" && object.getKind == "Service" then
                match lookupField object.fields "spec" with
                | none => .errState none
                | some (.obj spf) =>
                  match lookupField spf "type" with
                  | none => .errState none
                  | some ty =>
                    if Json.beq ty (.str "LoadBalancer") then
                      if 0 < lb.length then .ready else .pending
                    else .ready
                | some _ => .errState none
              else
                if 0 < lb.length then .ready else .pending

/-- The three patch-engine inputs after the update step has prepared them. -/
structure PreppedObjects where
  modified : Unstructured
  original : Unstructured
  current : Unstructured

/-- The resourceVersion handling of `resourceK8sManifestUpdate`
(`resource_k8s_manifest.go`), just before `patch` is called: the live
version read from `current` is set on `modified`, then the version is
cleared on `current` and on `original`. -/
def updatePrepare (modified original current : Unstructured) : PreppedObjects :=
  let m := Unstructured.setResourceVersion current.getResourceVersion modified
  let o := Unstructured.setResourceVersion "" original
  let c := Unstructured.setResourceVersion "" current
  ⟨m, o, c⟩

/-- The caller state handed to the engine (`schema.ResourceData`):
only the stored resource ID matters to the verified claims. -/
structure ResourceData where
  id : List Char
deriving DecidableEq

/-- The namespace defaulting at the top of `resourceK8sManifestCreate`:
explicit manifest namespace wins, else the caller-supplied namespace,
else `"default"`. -/
def defaultNamespace (namespace2 : String) (object : Unstructured) : Unstructured :=
  let objectNamespace := object.getNamespace
  if namespace2 = "" ∧ objectNamespace = "" then object.setNamespace "default"
  else if objectNamespace = "" then object.setNamespace namespace2
  else object

/-- Result of the identity fetch inside `resourceK8sManifestRead`:
the remote Get may report NotFound, a missing kind (NoMatch), another
error, or return the object. -/
inductive ReadFetch where
  | notFound
  | noMatch
  | apiErr (e : Err)
  | found

/-- `resourceK8sManifestRead` (`resource_k8s_manifest.go`) as far as the
caller state is concerned: decode the stored ID with `idParts` (a format
error aborts with the ID unchanged); `ParseGroupVersion` rejects a group
version with two or more slashes (ID unchanged); then fetch by identity —
on NotFound or NoMatch the ID is CLEARED (`d.SetId("")`) and the read
reports success, any other fetch error aborts with the ID unchanged, and
a successful fetch keeps the ID. -/
def resourceK8sManifestRead (d : ResourceData) (fetch : ReadFetch) :
    Except Err Unit × ResourceData :=
  match idParts d.id with
  | .error e => (.error e, d)
  | .ok (_, gv, _, _) =>
    if 2 ≤ (gv.filter (fun c => c == '/')).length then
      (.error (.parseGV gv), d)
    else
      match fetch with
      | .notFound => (.ok (), ⟨[]⟩)
      | .noMatch => (.ok (), ⟨[]⟩)
      | .apiErr e => (.error e, d)
      | .found => (.ok (), d)

/-- `resourceK8sManifestCreate` (`resource_k8s_manifest.go`) after the
manifest has been decoded: default the namespace, issue the remote create
(result supplied by the collaborator), store the tracking key as the
resource ID — "this must stand before the wait to avoid losing state on
error" — then run the readiness wait (its result likewise supplied; the
wait reads the ID but never writes it).  A wait error aborts the create
there, before the read step; only a successful wait reaches
`resourceK8sManifestRead`, whose state effects (including the ID clear on
NotFound/NoMatch) are modelled above.  Returns the operation outcome
together with the final caller state. -/
def resourceK8sManifestCreate (namespace2 : String) (object0 : Unstructured)
    (createRes : Except Err Unit) (waitRes : Except Err Unit)
    (readFetch : ReadFetch) (d : ResourceData) :
    Except Err Unit × ResourceData :=
  let object := defaultNamespace namespace2 object0
  match createRes with
  | .error e => (.error e, d)
  | .ok _ =>
    let d1 : ResourceData := ⟨buildId object⟩
    match waitRes with
    | .error e => (.error (.wrapped "Error waiting for resource to be created" e), d1)
    | .ok _ => resourceK8sManifestRead d1 readFetch

/-- Result of one identity fetch during the delete wait. -/
inductive FetchResult where
  | notFound
  | apiErr (e : Err)
  | fetched

/-- The `Refresh` closure of `resourceK8sManifestDelete`: a fetch error
that is NotFound classifies `deleted`; any other fetch error is returned
as fatal with the `"error"` state; a successful fetch classifies
`deleting`. -/
def deleteRefresh : FetchResult → String × Option Err
  | .notFound => ("deleted", none)
  | .apiErr e => ("error", some e)
  | .fetched => ("deleting", none)

/-- Modelled from the spec: the polling loop of the external
`resource.StateChangeConf.WaitForState` driving `deleteRefresh` — poll on
a fixed cadence until the target state, a refresh error, or the deadline;
"deadline exceeded while still pending/deleting → TimeoutError, never a
silent success".  The trace lists the fetch results seen at the poll
ticks that fit before the deadline; exhausting it while still deleting is
the timeout. -/
def deleteWaitLoop : List FetchResult → Except Err Unit
  | [] => .error .timeout
  | r :: rest =>
    match deleteRefresh r with
    | (_, some e) => .error e
    | (state, none) =>
      if state = "deleted" then .ok ()
      else if state = "deleting" then deleteWaitLoop rest
      else .error (.unexpectedState state)

/-- A sample desired object (a ConfigMap-shaped manifest) for witnesses. -/
def tgtSample : Unstructured :=
  ⟨[("apiVersion", .str "v1"), ("kind", .str "ConfigMap"),
    ("metadata", .obj [("name", .str "cm"), ("namespace", .str "ns")]),
    ("data", .obj [("a", .str "1")])]⟩

/-- The prior desired object for the same resource. -/
def origSample : Unstructured :=
  ⟨[("apiVersion", .str "v1"), ("kind", .str "ConfigMap"),
    ("metadata", .obj [("name", .str "cm"), ("namespace", .str "ns")]),
    ("data", .obj [("a", .str "0"), ("b", .str "2")])]⟩

/-- The live object for the same resource, carrying a resourceVersion. -/
def curSample : Unstructured :=
  ⟨[("apiVersion", .str "v1"), ("kind", .str "ConfigMap"),
    ("metadata", .obj [("name", .str "cm"), ("namespace", .str "ns"),
                       ("resourceVersion", .str "42")]),
    ("data", .obj [("a", .str "0")])]⟩

/-- A resource object whose namespace ends in a colon: every field is free
of the separator `"::"`, yet joining creates one at a field boundary. -/
def u4Sample : Unstructured :=
  ⟨[("apiVersion", .str "b"), ("kind", .str "c"),
    ("metadata", .obj [("namespace", .str "a:"), ("name", .str "d")])]⟩

/-- A fetched object whose status reports two ready replicas. -/
def rrSample : Unstructured := ⟨[("status", .obj [("readyReplicas", .num 2)])]⟩

/-- A fetched object whose status reports phase Pending. -/
def phaseSample : Unstructured := ⟨[("status", .obj [("phase", .str "Pending")])]⟩

/-- A core v1 Service of type LoadBalancer whose loadBalancer status holds
an explicitly empty ingress list. -/
def svcLBSample : Unstructured :=
  ⟨[("apiVersion", .str "v1"), ("kind", .str "Service"),
    ("metadata", .obj [("name", .str "svc"), ("namespace", .str "default")]),
    ("spec", .obj [("type", .str "LoadBalancer")]),
    ("status", .obj [("loadBalancer", .obj [("ingress", .arr [])])])]⟩

/-- A core v1 Service of type LoadBalancer with a provisioned ingress. -/
def svcLBReadySample : Unstructured :=
  ⟨[("apiVersion", .str "v1"), ("kind", .str "Service"),
    ("spec", .obj [("type", .str "LoadBalancer")]),
    ("status", .obj [("loadBalancer", .obj [("ingress",
      .arr [.obj [("ip", .str "10.0.0.9")]])])])]⟩

/-- A non-Service kind carrying an empty loadBalancer status. -/
def ingressSample : Unstructured :=
  ⟨[("apiVersion", .str "extensions/v1beta1"), ("kind", .str "Ingress"),
    ("status", .obj [("loadBalancer", .obj [])])]⟩

/-- A fetched object whose status is present but the empty object. -/
def emptyStatusSample : Unstructured := ⟨[("status", .obj [])]⟩

/-- A fetched object with no status key at all. -/
def noStatusSample : Unstructured := ⟨[("metadata", .obj [("name", .str "x")])]⟩

/-- A minimal desired object for the patch witnesses. -/
def tgtMini : Unstructured := ⟨[("spec", .str "b")]⟩

/-- A minimal live object differing from `tgtMini` in one field. -/
def curMini : Unstructured := ⟨[("spec", .str "a")]⟩

mutual

theorem Json.beq_iff : ∀ a b : Json, Json.beq a b = true ↔ a = b
  | .null, b => by cases b <;> simp [Json.beq]
  | .bool x, b => by cases b <;> simp [Json.beq]
  | .num x, b => by cases b <;> simp [Json.beq]
  | .str x, b => by cases b <;> simp [Json.beq]
  | .arr xs, b => by
      cases b <;> simp [Json.beq]
      exact beqArr_iff xs _
  | .obj fs, b => by
      cases b <;> simp [Json.beq]
      exact beqFields_iff fs _

theorem beqArr_iff : ∀ a b : List Json, beqArr a b = true ↔ a = b
  | [], b => by cases b <;> simp [beqArr]
  | x :: xs, b => by
      cases b with
      | nil => simp [beqArr]
      | cons y ys => simp [beqArr, Json.beq_iff x y, beqArr_iff xs ys]

theorem beqFields_iff : ∀ a b : List (String × Json), beqFields a b = true ↔ a = b
  | [], b => by cases b <;> simp [beqFields]
  | (k, v) :: xs, b => by
      cases b with
      | nil => simp [beqFields]
      | cons p ys =>
        obtain ⟨k2, v2⟩ := p
        simp [beqFields, Json.beq_iff v v2, beqFields_iff xs ys, and_assoc]

end

theorem Json.beq_refl (a : Json) : Json.beq a a = true :=
  (Json.beq_iff a a).mpr rfl

/-- C1: the patch engine selects the strategy by kind registration in the
native scheme: an unregistered (unstructured) kind gets the two-way JSON
merge patch between the serialized current and target objects with
strategy `merge`; a registered native kind gets the three-way strategic
merge patch from (original, target, current) with strategy
`strategic-merge`. -/
theorem createPatch_strategy_selection (native : String → String → Bool)
    (target original current : Unstructured) :
    (native target.getAPIVersion target.getKind = false →
      createPatch native target original current =
        .ok (.obj (createMergePatch current.fields target.fields), .merge)) ∧
    (native target.getAPIVersion target.getKind = true →
      createPatch native target original current =
        .ok (.obj (threeWayMergePatch original.fields target.fields current.fields),
             .strategicMerge)) := by
  constructor <;> intro h <;> simp [createPatch, h]

/-- Witness for C1 at concrete objects, once with the kind unregistered
and once with it registered. -/
theorem createPatch_strategy_selection_witness :
    createPatch (fun _ _ => false) tgtSample origSample curSample =
      .ok (.obj (createMergePatch curSample.fields tgtSample.fields), .merge) ∧
    createPatch (fun _ _ => true) tgtSample origSample curSample =
      .ok (.obj (threeWayMergePatch origSample.fields tgtSample.fields curSample.fields),
           .strategicMerge) :=
  ⟨(createPatch_strategy_selection (fun _ _ => false) tgtSample origSample curSample).1 rfl,
   (createPatch_strategy_selection (fun _ _ => true) tgtSample origSample curSample).2 rfl⟩

/-- C5: tracking-key decode returns the four fields exactly when splitting
by the separator yields exactly 4 parts, and fails with a format error on
any other part count. -/
theorem idParts_format_error (id a b c d : List Char) :
    (splitSep id = [a, b, c, d] → idParts id = .ok (a, b, c, d)) ∧
    ((splitSep id).length ≠ 4 → idParts id = .error (.format id)) := by
  constructor
  · intro h
    simp [idParts, h]
  · intro h
    unfold idParts
    rcases hl : splitSep id with _ | ⟨a1, _ | ⟨b1, _ | ⟨c1, _ | ⟨d1, _ | ⟨e1, t1⟩⟩⟩⟩⟩ <;>
      simp [hl] at h ⊢

/-- Witness for C5: a well-formed key decodes to its four parts; a key
with too few parts yields the format error. -/
theorem idParts_format_error_witness :
    idParts "a::b::c::d".toList = .ok ("a".toList, "b".toList, "c".toList, "d".toList) ∧
    idParts "a::b".toList = .error (.format "a::b".toList) :=
  ⟨(idParts_format_error "a::b::c::d".toList "a".toList "b".toList "c".toList
      "d".toList).1 (by decide),
   (idParts_format_error "a::b".toList [] [] [] []).2 (by decide)⟩

/-- C9: in the delete wait, a NotFound fetch is terminal success, any
other fetch error is fatal, a successful fetch keeps polling, and an
exhausted deadline while still deleting fails with the timeout error,
never silently succeeding. -/
theorem deleteWait_classification :
    (∀ rest, deleteWaitLoop (.notFound :: rest) = .ok ()) ∧
    (∀ e rest, deleteWaitLoop (.apiErr e :: rest) = .error e) ∧
    (∀ rest, deleteWaitLoop (.fetched :: rest) = deleteWaitLoop rest) ∧
    (∀ n, deleteWaitLoop (List.replicate n .fetched) = .error .timeout) ∧
    (Except.error Err.timeout ≠ (Except.ok () : Except Err Unit)) := by
  refine ⟨fun rest => rfl, fun e rest => rfl, fun rest => rfl, fun n => ?_, by simp⟩
  induction n with
  | zero => rfl
  | succ n ih => simpa [List.replicate, deleteWaitLoop, deleteRefresh] using ih

/-- C10: once the remote create succeeds the tracking key of the created
(namespace-defaulted) object is stored as the resource ID before the
readiness wait begins, and the wait never modifies or clears it: if the
wait ends in an error or timeout the create aborts right there — before
the read step — with the stored ID still the tracking key of the created
object; and when the wait succeeds, the state handed to the subsequent
read step still carries exactly that tracking key (the read step's own
NotFound/NoMatch ID clear is the read's effect, after the wait). -/
theorem create_stores_tracking_id (namespace2 : String) (object0 : Unstructured)
    (readFetch : ReadFetch) (d : ResourceData) :
    (∀ e, resourceK8sManifestCreate namespace2 object0 (.ok ()) (.error e) readFetch d =
      (.error (.wrapped "Error waiting for resource to be created" e),
       ⟨buildId (defaultNamespace namespace2 object0)⟩)) ∧
    (resourceK8sManifestCreate namespace2 object0 (.ok ()) (.ok ()) readFetch d =
      resourceK8sManifestRead ⟨buildId (defaultNamespace namespace2 object0)⟩
        readFetch) :=
  ⟨fun _ => rfl, rfl⟩

theorem lookup_setField_self (fs : List (String × Json)) (k : String) (v : Json) :
    lookupField (setField fs k v) k = some v := by
  induction fs with
  | nil => simp [setField, lookupField]
  | cons p rest ih =>
    obtain ⟨k2, v2⟩ := p
    simp only [setField]
    cases h : (k2 == k) with
    | true => simp [lookupField, h]
    | false => simpa [lookupField, h] using ih

theorem lookup_removeField_self (fs : List (String × Json)) (k : String) :
    lookupField (removeField fs k) k = none := by
  induction fs with
  | nil => rfl
  | cons p rest ih =>
    obtain ⟨k2, v2⟩ := p
    cases h : (k2 == k) with
    | true => simp [removeField, lookupField, h]
    | false => simp [removeField, lookupField, h]

theorem getRV_setRV_empty (u : Unstructured) :
    (Unstructured.setResourceVersion "" u).getResourceVersion = "" := by
  unfold Unstructured.setResourceVersion
  simp only [if_pos rfl]
  unfold Unstructured.getResourceVersion getNestedString removeNestedField
  cases hl : lookupField u.fields "metadata" with
  | none => simp [hl]
  | some j =>
    cases j <;> simp [hl, lookup_setField_self, lookup_removeField_self]

theorem getRV_setRV (v : String) (u : Unstructured)
    (hm : lookupField u.fields "metadata" = none ∨
          ∃ m, lookupField u.fields "metadata" = some (.obj m)) :
    (u.setResourceVersion v).getResourceVersion = v := by
  by_cases hv : v = ""
  · subst hv; exact getRV_setRV_empty u
  · unfold Unstructured.setResourceVersion
    simp only [if_neg hv]
    rcases hm with hm | ⟨m, hm⟩
    · have h1 : setNestedField u.fields "metadata" "resourceVersion" (.str v) =
          setField u.fields "metadata" (.obj [("resourceVersion", .str v)]) := by
        unfold setNestedField
        rw [hm]
      unfold Unstructured.getResourceVersion getNestedString
      rw [h1, lookup_setField_self]
      simp [lookupField]
    · have h1 : setNestedField u.fields "metadata" "resourceVersion" (.str v) =
          setField u.fields "metadata" (.obj (setField m "resourceVersion" (.str v))) := by
        unfold setNestedField
        rw [hm]
      unfold Unstructured.getResourceVersion getNestedString
      rw [h1, lookup_setField_self]
      simp [lookup_setField_self]

/-- C3 counterexample: on concrete update inputs whose live object carries
resourceVersion "42", the preparation step CLEARS the version on the
current object (so it is not "kept only on the current object"), moves it
onto the target, and the version token then DOES appear in the computed
two-way diff. -/
theorem update_resourceVersion_counterexample :
    curSample.getResourceVersion = "42" ∧
    (updatePrepare tgtSample origSample curSample).current.getResourceVersion = "" ∧
    ("" : String) ≠ "42" ∧
    lookupField
      (createMergePatch (updatePrepare tgtSample origSample curSample).current.fields
        (updatePrepare tgtSample origSample curSample).modified.fields)
      "metadata" = some (.obj [("resourceVersion", .str "42")]) := by
  refine ⟨rfl, rfl, by decide, ?_⟩
  simp +decide [createMergePatch, diffChanges, delNulls, lookupField, updatePrepare,
    tgtSample, origSample, curSample, Unstructured.setResourceVersion,
    Unstructured.getResourceVersion, setNestedField, removeNestedField,
    getNestedString, setField, removeField, Json.beq]

/-- C3 (amended): before the diff is computed, resourceVersion is cleared
on the original AND on the current object, and the live current value is
set on the modified/target object that the patch is computed against and
sent to the server — so the server can still reject stale writes via the
token carried in the patch body. -/
theorem update_resourceVersion_amended (modified original current : Unstructured)
    (hm : lookupField modified.fields "metadata" = none ∨
          ∃ m, lookupField modified.fields "metadata" = some (.obj m)) :
    (updatePrepare modified original current).original.getResourceVersion = "" ∧
    (updatePrepare modified original current).current.getResourceVersion = "" ∧
    (updatePrepare modified original current).modified.getResourceVersion =
      current.getResourceVersion := by
  refine ⟨getRV_setRV_empty original, getRV_setRV_empty current, ?_⟩
  exact getRV_setRV current.getResourceVersion modified hm

/-- Witness for the amended C3 at the concrete sample objects. -/
theorem update_resourceVersion_amended_witness :
    (updatePrepare tgtSample origSample curSample).original.getResourceVersion = "" ∧
    (updatePrepare tgtSample origSample curSample).current.getResourceVersion = "" ∧
    (updatePrepare tgtSample origSample curSample).modified.getResourceVersion =
      curSample.getResourceVersion :=
  update_resourceVersion_amended tgtSample origSample curSample (Or.inr ⟨_, rfl⟩)

theorem splitSep_no_sep : ∀ x : List Char, hasSep x = false → splitSep x = [x]
  | [], _ => rfl
  | [c], _ => rfl
  | c1 :: c2 :: rest, h => by
    have h2 : hasSep (c2 :: rest) = false := by
      simp [hasSep] at h
      simpa [hasSep] using h.2
    have h1 : (c1 == ':' && c2 == ':') = false := by
      simp [hasSep] at h
      by_cases hc1 : c1 = ':'
      · simp [hc1, h.1 hc1]
      · simp [hc1]
    rw [splitSep, if_neg (by simp [h1])]
    rw [splitSep_no_sep (c2 :: rest) h2]

theorem splitSep_append : ∀ x y : List Char, hasSep x = false →
    x.getLast? ≠ some ':' →
    splitSep (x ++ idSeparator ++ y) = x :: splitSep y
  | [], y, _, _ => by
    simp [idSeparator, splitSep]
  | [c], y, _, hlast => by
    have hc : (c == ':') = false := by
      simp [List.getLast?] at hlast
      simp [hlast]
    simp only [List.cons_append, List.nil_append, idSeparator]
    rw [splitSep, if_neg (by simp [hc])]
    have hy : splitSep (':' :: ':' :: y) = [] :: splitSep y := by
      rw [splitSep, if_pos (by simp)]
    rw [hy]
  | c1 :: c2 :: rest, y, h, hlast => by
    have h2 : hasSep (c2 :: rest) = false := by
      simp [hasSep] at h
      simpa [hasSep] using h.2
    have h1 : (c1 == ':' && c2 == ':') = false := by
      simp [hasSep] at h
      by_cases hc1 : c1 = ':'
      · simp [hc1, h.1 hc1]
      · simp [hc1]
    have hlast2 : (c2 :: rest).getLast? ≠ some ':' := by
      rwa [List.getLast?_cons_cons] at hlast
    have ih := splitSep_append (c2 :: rest) y h2 hlast2
    simp only [List.cons_append] at ih ⊢
    rw [splitSep, if_neg (by simp [h1])]
    rw [ih]

/-- C4 counterexample: the claim's own hypotheses hold for `u4Sample`
(no field contains `"::"`), yet decoding the encoded key returns fields
other than the object's — the trailing colon of the namespace fuses with
the separator, shifting the leftmost split. -/
theorem buildId_roundtrip_counterexample :
    hasSep u4Sample.getNamespace.toList = false ∧
    hasSep (gvString u4Sample.getAPIVersion).toList = false ∧
    hasSep u4Sample.getKind.toList = false ∧
    hasSep u4Sample.getName.toList = false ∧
    idParts (buildId u4Sample) =
      .ok ("a".toList, ":b".toList, "c".toList, "d".toList) ∧
    idParts (buildId u4Sample) ≠
      .ok (u4Sample.getNamespace.toList, (gvString u4Sample.getAPIVersion).toList,
           u4Sample.getKind.toList, u4Sample.getName.toList) :=
  ⟨rfl, rfl, rfl, rfl, by decide, by decide⟩

/-- C4 (amended): decoding the encoded tracking key reproduces the four
identity fields exactly for every object whose fields contain no `"::"`
substring AND whose namespace, groupVersion string and kind do not end
with a colon (a trailing colon followed by the separator shifts the
leftmost-match split). -/
theorem buildId_roundtrip_amended (u : Unstructured)
    (hns : hasSep u.getNamespace.toList = false)
    (hgv : hasSep (gvString u.getAPIVersion).toList = false)
    (hk : hasSep u.getKind.toList = false)
    (hn : hasSep u.getName.toList = false)
    (lns : u.getNamespace.toList.getLast? ≠ some ':')
    (lgv : (gvString u.getAPIVersion).toList.getLast? ≠ some ':')
    (lk : u.getKind.toList.getLast? ≠ some ':') :
    idParts (buildId u) =
      .ok (u.getNamespace.toList, (gvString u.getAPIVersion).toList,
           u.getKind.toList, u.getName.toList) := by
  unfold buildId idParts
  simp only [joinSep]
  rw [splitSep_append _ _ hns lns, splitSep_append _ _ hgv lgv,
      splitSep_append _ _ hk lk, splitSep_no_sep _ hn]

/-- Witness for the amended C4 at a concrete colon-free object. -/
theorem buildId_roundtrip_amended_witness :
    idParts (buildId tgtSample) =
      .ok (tgtSample.getNamespace.toList, (gvString tgtSample.getAPIVersion).toList,
           tgtSample.getKind.toList, tgtSample.getName.toList) :=
  buildId_roundtrip_amended tgtSample rfl rfl rfl rfl
    (by decide) (by decide) (by decide)

/-- C6: with a status present and no kind-specific status viewer, the
heuristics run in priority order, the first applicable rule deciding:
readyReplicas present → ready iff it is positive; else phase present →
ready iff the phase is one of the six ready phases (case-sensitive); else
when no rule applies — no loadBalancer at all, or a loadBalancer whose
check is skipped because the object is a core v1 Service of a non-LoadBalancer
type — classify ready. -/
theorem refresh_heuristic_priority (u : Unstructured) (s : Json) (st : StatusRec)
    (hs : lookupField u.fields "status" = some s)
    (hdec : decodeStatus s = .ok st) :
    (∀ n, st.readyReplicas = some n →
      refreshClassify none u = (if 0 < n then .ready else .pending)) ∧
    (st.readyReplicas = none → ∀ p, st.phase = some p →
      refreshClassify none u = (if readyPhases.contains p then .ready else .pending)) ∧
    (st.readyReplicas = none → st.phase = none → st.loadBalancer = none →
      refreshClassify none u = .ready) ∧
    (st.readyReplicas = none → st.phase = none → ∀ lb, st.loadBalancer = some lb →
      u.getAPIVersion = "v1" → u.getKind = "Service" →
      ∀ spf ty, lookupField u.fields "spec" = some (.obj spf) →
        lookupField spf "type" = some ty → ty ≠ .str "LoadBalancer" →
        refreshClassify none u = .ready) := by
  refine ⟨?_, ?_, ?_, ?_⟩
  · intro n hrr
    simp [refreshClassify, hs, hdec, hrr]
  · intro hrr p hp
    simp [refreshClassify, hs, hdec, hrr, hp]
  · intro hrr hp hlb
    simp [refreshClassify, hs, hdec, hrr, hp, hlb]
  · intro hrr hp lb hlb h1 h2 spf ty hspec hty hne
    have hb : Json.beq ty (.str "LoadBalancer") = false := by
      cases hbv : Json.beq ty (.str "LoadBalancer")
      · rfl
      · exact absurd ((Json.beq_iff _ _).mp hbv) hne
    simp [refreshClassify, hs, hdec, hrr, hp, hlb, h1, h2, hspec, hty, hb]

/-- Witness for C6: two ready replicas classify ready; phase Pending
classifies pending. -/
theorem refresh_heuristic_priority_witness :
    refreshClassify none rrSample = .ready ∧
    refreshClassify none phaseSample = .pending := by
  constructor
  · have h := (refresh_heuristic_priority rrSample (.obj [("readyReplicas", .num 2)])
      ⟨some 2, none, none⟩ rfl rfl).1 2 rfl
    simpa using h
  · have h := (refresh_heuristic_priority phaseSample (.obj [("phase", .str "Pending")])
      ⟨none, some "Pending", none⟩ rfl rfl).2.1 rfl "Pending" rfl
    simpa [readyPhases] using h

/-- C7 counterexample: the claimed input — a v1 Service of type
LoadBalancer with status `{loadBalancer: {ingress: []}}` — is classified
READY by the code, not pending: the heuristic measures the size of the
loadBalancer map (which has the key `ingress`), not the ingress list. -/
theorem lb_ingress_counterexample :
    refreshClassify none svcLBSample = .ready ∧
    RefreshRes.ready ≠ RefreshRes.pending := ⟨rfl, by decide⟩

/-- C7 (amended): when readyReplicas and phase are absent and a
loadBalancer status is present, the rule is checked for every kind except
that a core v1 Service is only checked when `spec.type == "LoadBalancer"`;
when checked, the object is ready iff the loadBalancer MAP itself is
non-empty (has at least one key) — so `{loadBalancer: {ingress: []}}` is
ready and only `{loadBalancer: {}}` is pending. -/
theorem lb_map_nonempty_amended (u : Unstructured) (s : Json) (st : StatusRec)
    (lb : List (String × Json))
    (hs : lookupField u.fields "status" = some s)
    (hdec : decodeStatus s = .ok st)
    (hrr : st.readyReplicas = none) (hp : st.phase = none)
    (hlb : st.loadBalancer = some lb) :
    (¬(u.getAPIVersion = "v1" ∧ u.getKind = "Service") →
      refreshClassify none u = (if 0 < lb.length then .ready else .pending)) ∧
    (∀ spf, u.getAPIVersion = "v1" → u.getKind = "Service" →
      lookupField u.fields "spec" = some (.obj spf) →
      lookupField spf "type" = some (.str "LoadBalancer") →
      refreshClassify none u = (if 0 < lb.length then .ready else .pending)) := by
  constructor
  · intro hsvc
    have hcond : (u.getAPIVersion == "v1" && u.getKind == "Service") = false := by
      by_cases h1 : u.getAPIVersion = "v1"
      · have h2 : u.getKind ≠ "Service" := fun h2 => hsvc ⟨h1, h2⟩
        simp [h1, h2]
      · simp [h1]
    simp [refreshClassify, hs, hdec, hrr, hp, hlb, hcond]
  · intro spf h1 h2 hspec hty
    have hb : Json.beq (.str "LoadBalancer") (.str "LoadBalancer") = true :=
      Json.beq_refl _
    simp [refreshClassify, hs, hdec, hrr, hp, hlb, h1, h2, hspec, hty, hb]

/-- Witness for the amended C7: a LoadBalancer Service with a provisioned
ingress entry is ready; a non-Service kind with an empty loadBalancer map
is pending. -/
theorem lb_map_nonempty_amended_witness :
    refreshClassify none svcLBReadySample = .ready ∧
    refreshClassify none ingressSample = .pending := by
  constructor
  · have h := (lb_map_nonempty_amended svcLBReadySample
      (.obj [("loadBalancer", .obj [("ingress", .arr [.obj [("ip", .str "10.0.0.9")]])])])
      ⟨none, none, some [("ingress", .arr [.obj [("ip", .str "10.0.0.9")]])]⟩
      [("ingress", .arr [.obj [("ip", .str "10.0.0.9")]])]
      rfl rfl rfl rfl rfl).2 [("type", .str "LoadBalancer")] rfl rfl rfl rfl
    simpa using h
  · have h := (lb_map_nonempty_amended ingressSample
      (.obj [("loadBalancer", .obj [])]) ⟨none, none, some []⟩ []
      rfl rfl rfl rfl rfl).1 (by intro hc; exact absurd hc.2 (by decide))
    simpa using h

/-- C8 counterexample: an object whose status is present but the empty
object `{}` (and has no viewer) is classified READY by the heuristics —
every snapshot field decodes to absent and the chain falls through to the
conservative ready default — not pending as claimed. -/
theorem empty_status_counterexample :
    refreshClassify none emptyStatusSample = .ready ∧
    RefreshRes.ready ≠ RefreshRes.pending := ⟨rfl, by decide⟩

/-- C8 (amended): an empty-object status and a missing status key are
classified alike: ready — the empty status decodes to an all-absent
snapshot that falls through every heuristic to the ready default, and a
missing status key is ready immediately. -/
theorem empty_status_amended (u : Unstructured) :
    (lookupField u.fields "status" = some (.obj []) →
      refreshClassify none u = .ready) ∧
    (∀ viewer, lookupField u.fields "status" = none →
      refreshClassify viewer u = .ready) := by
  constructor
  · intro h
    simp [refreshClassify, h, decodeStatus, decodeStatusPhase, decodeStatusLB,
      lookupFieldCI]
  · intro viewer h
    simp [refreshClassify, h]

/-- Witness for the amended C8 at the empty-status and no-status objects. -/
theorem empty_status_amended_witness :
    refreshClassify none emptyStatusSample = .ready ∧
    refreshClassify none noStatusSample = .ready :=
  ⟨(empty_status_amended emptyStatusSample).1 rfl,
   (empty_status_amended noStatusSample).2 none rfl⟩

theorem lookupField_cons_self (k : String) (v : Json) (rest : List (String × Json)) :
    lookupField ((k, v) :: rest) k = some v := by
  simp [lookupField]

theorem lookupField_cons_ne (k : String) (v : Json) (rest : List (String × Json))
    (key : String) (h : ¬k = key) :
    lookupField ((k, v) :: rest) key = lookupField rest key := by
  simp only [lookupField]
  rw [List.find?_cons_of_neg]
  simpa using h

theorem fieldsWF_mem : ∀ fs : List (String × Json), fieldsWF fs = true →
    ∀ p ∈ fs, p.2.mapWF = true := by
  intro fs
  induction fs with
  | nil => intro _ p hp; simp at hp
  | cons q rest ih =>
    obtain ⟨k, v⟩ := q
    intro h p hp
    simp only [fieldsWF, Bool.and_eq_true] at h
    rcases List.mem_cons.mp hp with hp | hp
    · subst hp; exact h.1
    · exact ih h.2 p hp

theorem lookup_self_of_unique : ∀ a : List (String × Json), uniqueKeys a = true →
    ∀ p ∈ a, lookupField a p.1 = some p.2 := by
  intro a
  induction a with
  | nil => intro _ p hp; simp at hp
  | cons q rest ih =>
    obtain ⟨k, v⟩ := q
    intro h p hp
    simp only [uniqueKeys, Bool.and_eq_true] at h
    rcases List.mem_cons.mp hp with hp | hp
    · subst hp; exact lookupField_cons_self k v rest
    · have hk : ¬k = p.1 := by
        have h1 := h.1
        simp only [Bool.not_eq_true', List.any_eq_false] at h1
        intro he
        exact absurd (by simp [he]) (h1 p hp)
      rw [lookupField_cons_ne k v rest p.1 hk]
      exact ih h.2 p hp

theorem diffs_self_nil : ∀ (n : Nat) (b a : List (String × Json)),
    sizeOf b ≤ n →
    (∀ p ∈ b, lookupField a p.1 = some p.2) →
    (∀ p ∈ b, Json.mapWF p.2 = true) →
    diffChanges a b = [] ∧ diffNoDeletions a b = [] := by
  intro n
  induction n with
  | zero =>
    intro b a hsz _ _
    cases b with
    | nil => exact ⟨by simp [diffChanges], by simp [diffNoDeletions]⟩
    | cons p rest =>
      exfalso
      simp only [List.cons.sizeOf_spec] at hsz
      omega
  | succ n ih =>
    intro b a hsz hl hw
    cases b with
    | nil => exact ⟨by simp [diffChanges], by simp [diffNoDeletions]⟩
    | cons hd rest =>
      obtain ⟨k, bv⟩ := hd
      have hsz2 : sizeOf rest ≤ n ∧ sizeOf bv ≤ n := by
        simp only [List.cons.sizeOf_spec, Prod.mk.sizeOf_spec] at hsz
        omega
      have hlk : lookupField a k = some bv := hl (k, bv) (List.mem_cons_self _ _)
      have hTail := ih rest a hsz2.1
        (fun p hp => hl p (List.mem_cons_of_mem _ hp))
        (fun p hp => hw p (List.mem_cons_of_mem _ hp))
      cases bv with
      | obj bo =>
        have hwf : Json.mapWF (.obj bo) = true := hw (k, .obj bo) (List.mem_cons_self _ _)
        simp only [Json.mapWF, Bool.and_eq_true] at hwf
        have hself : ∀ p ∈ bo, lookupField bo p.1 = some p.2 :=
          lookup_self_of_unique bo hwf.1
        have hwfm : ∀ p ∈ bo, Json.mapWF p.2 = true := fieldsWF_mem bo hwf.2
        have hszbo : sizeOf bo ≤ n := by
          have hb := hsz2.2
          simp only [Json.obj.sizeOf_spec] at hb
          omega
        have hin := ih bo bo hszbo hself hwfm
        have hdel : delNulls bo bo = [] := by
          simp only [delNulls, List.filterMap_eq_nil_iff]
          intro p hp
          simp [hself p hp]
        constructor
        · simp [diffChanges, hlk, hin.1, hdel, hTail.1]
        · simp [diffNoDeletions, hlk, hin.2, hTail.2]
      | null =>
        exact ⟨by simp [diffChanges, hlk, hTail.1, Json.beq],
               by simp [diffNoDeletions, hlk, hTail.2, Json.beq]⟩
      | bool x =>
        exact ⟨by simp [diffChanges, hlk, hTail.1, Json.beq],
               by simp [diffNoDeletions, hlk, hTail.2, Json.beq]⟩
      | num x =>
        exact ⟨by simp [diffChanges, hlk, hTail.1, Json.beq],
               by simp [diffNoDeletions, hlk, hTail.2, Json.beq]⟩
      | str x =>
        exact ⟨by simp [diffChanges, hlk, hTail.1, Json.beq],
               by simp [diffNoDeletions, hlk, hTail.2, Json.beq]⟩
      | arr xs =>
        exact ⟨by simp [diffChanges, hlk, hTail.1, Json.beq_refl],
               by simp [diffNoDeletions, hlk, hTail.2, Json.beq_refl]⟩

theorem threeWayDeletions_self : ∀ (n : Nat) (o t : List (String × Json)),
    sizeOf o ≤ n → threeWayDeletions o t t = [] := by
  intro n
  induction n with
  | zero =>
    intro o t hsz
    cases o with
    | nil => simp [threeWayDeletions]
    | cons p rest =>
      exfalso
      simp only [List.cons.sizeOf_spec] at hsz
      omega
  | succ n ih =>
    intro o t hsz
    cases o with
    | nil => simp [threeWayDeletions]
    | cons hd rest =>
      obtain ⟨k, ov⟩ := hd
      have hsz2 : sizeOf rest ≤ n ∧ sizeOf ov ≤ n := by
        simp only [List.cons.sizeOf_spec, Prod.mk.sizeOf_spec] at hsz
        omega
      have hTail := ih rest t hsz2.1
      cases hlt : lookupField t k with
      | none => simp [threeWayDeletions, hlt, hTail]
      | some tv =>
        cases ov with
        | obj oo =>
          have hoo : sizeOf oo ≤ n := by
            have hb := hsz2.2
            simp only [Json.obj.sizeOf_spec] at hb
            omega
          cases tv
          case obj to2 => simp [threeWayDeletions, hlt, hTail, ih oo to2 hoo]
          all_goals simp [threeWayDeletions, hlt, hTail]
        | null => simp [threeWayDeletions, hlt, hTail]
        | bool x => simp [threeWayDeletions, hlt, hTail]
        | num x => simp [threeWayDeletions, hlt, hTail]
        | str x => simp [threeWayDeletions, hlt, hTail]
        | arr xs => simp [threeWayDeletions, hlt, hTail]

theorem createMergePatch_self (a : List (String × Json))
    (h : Json.mapWF (.obj a) = true) : createMergePatch a a = [] := by
  simp only [Json.mapWF, Bool.and_eq_true] at h
  have hd := diffs_self_nil (sizeOf a) a a (le_refl _)
    (lookup_self_of_unique a h.1) (fieldsWF_mem a h.2)
  have hdel : delNulls a a = [] := by
    simp only [delNulls, List.filterMap_eq_nil_iff]
    intro p hp
    simp [lookup_self_of_unique a h.1 p hp]
  simp [createMergePatch, hd.1, hdel]

theorem threeWayMergePatch_self (o t : List (String × Json))
    (h : Json.mapWF (.obj t) = true) : threeWayMergePatch o t t = [] := by
  simp only [Json.mapWF, Bool.and_eq_true] at h
  have hd := diffs_self_nil (sizeOf t) t t (le_refl _)
    (lookup_self_of_unique t h.1) (fieldsWF_mem t h.2)
  have hdels := threeWayDeletions_self (sizeOf o) o t (le_refl _)
  simp [threeWayMergePatch, hd.2, hdels, mergeFields]

theorem renderJson_empty_obj : renderJson (Json.obj []) = "\x7b\x7d" := by
  simp [renderJson, renderFields]

/-- C2: the apply step skips the remote write and reports success exactly
when the computed patch bytes equal the empty-object sentinel, and
otherwise issues a conditional remote patch of the current object; in
particular identical serialized target and current objects yield the
sentinel under either strategy and cause no remote write.  (A nil patch
together with a nil error cannot arise in the model: the always-object
inputs serialize and diff totally.) -/
theorem patch_sentinel_skip (native : String → String → Bool)
    (target original current : Unstructured) :
    (∀ p pt, createPatch native target original current = .ok (p, pt) →
      (renderJson p = "\x7b\x7d" →
        patchGo native target original current = .ok .skipped) ∧
      (renderJson p ≠ "\x7b\x7d" →
        patchGo native target original current = .ok (.wrote current pt p))) ∧
    (Json.mapWF (.obj target.fields) = true → current = target →
      patchGo native target original current = .ok .skipped) := by
  constructor
  · intro p pt hok
    constructor
    · intro hsent
      simp [patchGo, hok, hsent]
    · intro hsent
      simp [patchGo, hok, hsent]
  · intro hwf heq
    subst heq
    cases hn : native current.getAPIVersion current.getKind with
    | false =>
      have h1 : createMergePatch current.fields current.fields = [] :=
        createMergePatch_self _ hwf
      simp [patchGo, createPatch, hn, h1, renderJson_empty_obj]
    | true =>
      have h1 : threeWayMergePatch original.fields current.fields current.fields = [] :=
        threeWayMergePatch_self _ _ hwf
      simp [patchGo, createPatch, hn, h1, renderJson_empty_obj]

/-- Witness for C2: equal target and current skip the write; a
one-field difference issues the conditional patch of the current object. -/
theorem patch_sentinel_skip_witness :
    patchGo (fun _ _ => false) tgtMini origSample tgtMini = .ok .skipped ∧
    patchGo (fun _ _ => false) tgtMini origSample curMini =
      .ok (.wrote curMini .merge (.obj [("spec", .str "b")])) := by
  constructor
  · exact (patch_sentinel_skip (fun _ _ => false) tgtMini origSample tgtMini).2 rfl rfl
  · have hok : createPatch (fun _ _ => false) tgtMini origSample curMini =
        .ok (.obj [("spec", .str "b")], .merge) := by
      simp +decide [createPatch, createMergePatch, diffChanges, delNulls, lookupField,
        tgtMini, curMini, Json.beq]
    have hne : renderJson (.obj [("spec", .str "b")]) ≠ "\x7b\x7d" := by
      simp [renderJson, renderFields]
    exact ((patch_sentinel_skip (fun _ _ => false) tgtMini origSample curMini).1
      (.obj [("spec", .str "b")]) .merge hok).2 hne
